import Mathlib

/-
Verification of the svggloo merge-and-naming pipeline (src/src/template.rs)
against its natural-language specification.

Rust strings are modelled as lists of characters; all string data appearing
in the claims is ASCII, where the Rust string operations used by the program
(to_lowercase, replace of a space, join) act character by character exactly
as the character-level models below. Fallible or panicking code is modelled
with Option and Except; file and process effects are modelled as explicit
traces; file contents read by the program are supplied as parameters.
-/

namespace Svggloo

/-- Character-list model of a Rust String value. -/
abbrev Str := List Char

/-- Model of Rust str.to_lowercase as used on the joined name in
src/src/template.rs lines 101 and 103; on ASCII text it lowercases each
character independently, which is Char.toLower. -/
def lowerStr (s : Str) : Str := s.map Char.toLower

/-- Model of the replacement of each space character by an underscore,
src/src/template.rs line 99: only the space character U+0020 is replaced,
wherever it occurs in the value. -/
def replaceSpaces (s : Str) : Str := s.map (fun c => if c = ' ' then '_' else c)

/-- One CSV row deserialized into a HashMap from field name to value, the
Record type of src/src/template.rs line 13, represented as its list of
entries in HashMap iteration order. Keys are unique within a record.
Lookups do not depend on the entry order; the order matters only for the
record.values().next() fallback of line 103, since a Rust HashMap iterates
in an unspecified order unrelated to insertion order. -/
abbrev Record := List (String × Str)

/-- Model of a HashMap lookup: the value of the entry whose key is the given
field name, if any. -/
def lookupField (record : Record) (f : String) : Option Str :=
  (record.find? (fun kv => kv.1 == f)).map (fun kv => kv.2)

/-- Model of collecting the values of the requested fields,
src/src/template.rs lines 95 to 98: indexing the record with a missing key
panics, which the model reports as none. -/
def lookupAll (record : Record) : List String → Option (List Str)
  | [] => some []
  | f :: fs =>
    match lookupField record f with
    | none => none
    | some v => (lookupAll record fs).map (fun vs => v :: vs)

/-- Model of the item_name computation of render, src/src/template.rs lines
93 to 104. With requested fields: collect the value of each field in order
(panic, modelled none, if one is absent), replace spaces by underscores in
each value, join the values with the separator, then lowercase the whole
joined string. With no requested fields: take the first value in HashMap
iteration order (panic, modelled none, on an empty record) and lowercase it,
with no space replacement. -/
def computeName (fieldBasedName : Option (List String)) (sep : Str)
    (record : Record) : Option Str :=
  match fieldBasedName with
  | some fields =>
    (lookupAll record fields).map
      (fun v => lowerStr (List.intercalate sep (v.map replaceSpaces)))
  | none => record.head?.map (fun kv => lowerStr kv.2)

/-- Reference cleaning step written from the words of claim C1 and spec
section 4.2: replace whitespace characters by underscores, then lowercase
the cleaned value. Whitespace is Char.isWhitespace, which agrees with the
Rust notion on the ASCII range. -/
def cleanFieldSpec (v : Str) : Str :=
  lowerStr (v.map (fun c => if c.isWhitespace then '_' else c))

/-- Reference naming rule written from the words of claim C1 and spec section
4.2: clean and lowercase each field value, then join with the separator, so
that lowercasing is applied per field before joining and never to the
separator. -/
def computeNameSpec (fields : List String) (sep : Str) (record : Record) :
    Option Str :=
  (lookupAll record fields).map
    (fun v => List.intercalate sep (v.map cleanFieldSpec))

/-- The amended naming rule: as in the code, only space characters are
replaced by underscores, and the lowercasing acts on the entire joined
string, so the separator is lowercased together with the field values.
Stated here in the equivalent per-field form with a lowercased separator. -/
def computeNameAmended (fields : List String) (sep : Str) (record : Record) :
    Option Str :=
  (lookupAll record fields).map
    (fun v => List.intercalate (lowerStr sep)
      (v.map (fun x => lowerStr (replaceSpaces x))))

/-- Modelled from the spec: the templating engine (minijinja) is an external
dependency whose code is not part of this repository. Per spec section 4.3 a
template is a sequence of literal segments and field references. -/
inductive Seg
  | lit (s : Str)
  | ref (f : String)
deriving DecidableEq

/-- A parsed template, ready to render. -/
abbrev Template := List Seg

/-- Modelled from the spec: the render-time error of the templating engine
raised on a reference to a field absent from the record. -/
inductive TemplateError
  | undefinedField (f : String)
deriving DecidableEq

/-- Modelled from the spec, section 4.3: render substitutes every field
reference with the corresponding value from the record and fails with a
render error on a reference to a field absent from the record; it never
silently substitutes an empty string. -/
def renderTemplate (tmpl : Template) (record : Record) :
    Except TemplateError Str :=
  match tmpl with
  | [] => .ok []
  | .lit s :: rest => (renderTemplate rest record).map (fun r => s ++ r)
  | .ref f :: rest =>
    match lookupField record f with
    | none => .error (.undefinedField f)
    | some v => (renderTemplate rest record).map (fun r => v ++ r)

/-- Decidable equality for Except values, used to evaluate the model on
concrete inputs. -/
instance {ε α : Type} [DecidableEq ε] [DecidableEq α] :
    DecidableEq (Except ε α) := fun x y =>
  match x, y with
  | .ok a, .ok b =>
    match decEq a b with
    | isTrue h => isTrue (by rw [h])
    | isFalse h => isFalse (fun hh => h (by injection hh))
  | .ok _, .error _ => isFalse (fun hh => Except.noConfusion hh)
  | .error _, .ok _ => isFalse (fun hh => Except.noConfusion hh)
  | .error e, .error f =>
    match decEq e f with
    | isTrue h => isTrue (by rw [h])
    | isFalse h => isFalse (fun hh => h (by injection hh))

/-- How one iteration of the record loop of render stops early: a panic from
the naming code (missing field indexing, or unwrap on an empty record) or a
propagated template render error. -/
inductive RunStop
  | namingPanic
  | renderError (e : TemplateError)
deriving DecidableEq

/-- One iteration of the record loop of render, src/src/template.rs lines 89
to 113: compute the output name (panic point), render the record (error
point), and produce the written path, which is the output directory joined
with the name followed by the hard coded svg suffix of line 106, together
with the rendered content. -/
def step (tmpl : Template) (fieldBasedName : Option (List String)) (sep : Str)
    (outputDir : Str) (record : Record) : Except RunStop (Str × Str) :=
  match computeName fieldBasedName sep record with
  | none => .error .namingPanic
  | some itemName =>
    match renderTemplate tmpl record with
    | .error e => .error (.renderError e)
    | .ok rendered =>
      .ok (outputDir ++ "/".toList ++ itemName ++ ".svg".toList, rendered)

/-- Whether one iteration of the record loop succeeds. -/
def stepOk (tmpl : Template) (fieldBasedName : Option (List String))
    (sep : Str) (outputDir : Str) (record : Record) : Bool :=
  match step tmpl fieldBasedName sep outputDir record with
  | .ok _ => true
  | .error _ => false

/-- Observable outcome of the record loop of render: the file writes in
order, the accumulated files vector, and the returned value, which on
success is unit, since render returns Ok of unit at src/src/template.rs
line 123. -/
structure RunOut where
  writes : List (Str × Str)
  files : List Str
  result : Except RunStop Unit

/-- The record loop of render, src/src/template.rs lines 89 to 113: records
are processed in CSV row order; a stop at one record keeps the files already
written for earlier records and abandons the rest of the iteration. -/
def runRecords (tmpl : Template) (fieldBasedName : Option (List String))
    (sep : Str) (outputDir : Str) : List Record → RunOut
  | [] => ⟨[], [], .ok ()⟩
  | r :: rs =>
    match step tmpl fieldBasedName sep outputDir r with
    | .error e => ⟨[], [], .error e⟩
    | .ok pc =>
      let rest := runRecords tmpl fieldBasedName sep outputDir rs
      ⟨pc :: rest.writes, pc.1 :: rest.files, rest.result⟩

/-- Model of the effect of the fs::write calls of a run on a directory
state: fs::write creates or truncates, so a later write to a path replaces
any earlier content at that path without warning. -/
def applyWrites (fs : Str → Option Str) (ws : List (Str × Str)) :
    Str → Option Str :=
  ws.foldl (fun acc w => fun q => if q = w.1 then some w.2 else acc q) fs

/-- A filesystem path: either valid UTF-8 together with its text, or a path
that is not valid UTF-8, kept abstract. Conversions of Rust paths to Rust
strings succeed exactly on the first kind. -/
inductive RPath
  | utf8 (s : Str)
  | nonUtf8 (n : Nat)
deriving DecidableEq

/-- Model of the conversions of a path to a string used by the exporters:
to_str on a Path and into_string on an OsString, both of which fail on a
path that is not valid UTF-8. -/
def pathToStr (p : RPath) : Option Str :=
  match p with
  | .utf8 s => some s
  | .nonUtf8 _ => none

/-- Break a reversed character list at the first occurrence of c, returning
the segment before it and the remainder, both still reversed. -/
def revBreak (c : Char) : List Char → Option (List Char × List Char)
  | [] => none
  | x :: xs =>
    if x = c then some ([], xs)
    else (revBreak c xs).map (fun p => (x :: p.1, p.2))

/-- Split a path into its directory prefix, including the final slash, and
its file name, the part after the last slash. -/
def fileSplit (p : Str) : Str × Str :=
  match revBreak '/' p.reverse with
  | none => ([], p)
  | some pr => (pr.2.reverse ++ ['/'], pr.1.reverse)

/-- Split a file name into stem and extension following the rule of the Rust
Path type: the extension is the part after the last dot, provided there is a
dot that is not the first character of the file name. -/
def extSplit (name : Str) : Str × Option Str :=
  match revBreak '.' name.reverse with
  | none => (name, none)
  | some pr =>
    if pr.2 = [] then (name, none)
    else (pr.2.reverse, some pr.1.reverse)

/-- Model of Path.with_extension: drop the current extension of the file
name, if any, and append a dot and the new extension when the new extension
is nonempty. -/
def withExtension (p : Str) (ext : Str) : Str :=
  let d := (fileSplit p).1
  let stem := (extSplit (fileSplit p).2).1
  if ext = [] then d ++ stem else d ++ stem ++ '.' :: ext

/-- Model of Path.extension. -/
def extensionOf (p : Str) : Option Str := (extSplit (fileSplit p).2).2

/-- Path.with_extension lifted to possibly non UTF-8 paths. A path that is
not valid UTF-8 stays abstract: in the program its extension-swapped form is
converted to a string only after the source path already was, so it is never
inspected when the source path is not valid UTF-8. -/
def withExtensionP (p : RPath) (ext : Str) : RPath :=
  match p with
  | .utf8 s => .utf8 (withExtension s ext)
  | .nonUtf8 n => .nonUtf8 n

/-- One subprocess invocation: the program name and its argument list, as
assembled for export_with in src/src/template.rs. -/
structure Invocation where
  program : String
  args : List Str
deriving DecidableEq

/-- Model of export_with, src/src/template.rs lines 190 to 199, on the
invocation-building side: one call issues one subprocess invocation. -/
def export_with (program : String) (args : List Str) : Invocation :=
  ⟨program, args⟩

/-- The subprocess invocations an export variant issues, in order, plus
whether the variant aborted with a panic partway; invocations that would
have followed a panic are never issued. -/
structure ExportTrace where
  invocations : List Invocation
  panicked : Bool
deriving DecidableEq

/-- Model of get_in_out_file, src/src/template.rs lines 240 to 254: convert
the source path to a string, panicking (none) when it is not valid UTF-8,
and derive the output path by swapping the extension to pdf, with the same
panic on a failed conversion of the derived path. -/
def get_in_out_file (src : RPath) : Option (Str × Str) :=
  match pathToStr src with
  | none => none
  | some in_svg =>
    (pathToStr (withExtensionP src "pdf".toList)).map
      (fun out_pdf => (in_svg, out_pdf))

/-- Model of export_with_inkscape, src/src/template.rs lines 169 to 187:
source paths that are not valid UTF-8 are dropped by filter_map, and a
single invocation carries the three fixed flags followed by the remaining
file names. -/
def export_with_inkscape (srcs : List RPath) : ExportTrace :=
  let export_filenames := srcs.filterMap pathToStr
  let args := ["--export-area-drawing".toList, "--batch-process".toList,
    "--export-type=pdf".toList] ++ export_filenames
  ⟨[export_with "inkscape" args], false⟩

/-- Model of export_with_cairosvg, src/src/template.rs lines 207 to 224: one
invocation per source file, aborting with the panic of get_in_out_file at
the first path that is not valid UTF-8. -/
def export_with_cairosvg : List RPath → ExportTrace
  | [] => ⟨[], false⟩
  | src :: rest =>
    match get_in_out_file src with
    | none => ⟨[], true⟩
    | some inOut =>
      let t := export_with_cairosvg rest
      ⟨export_with "cairosvg"
          ["-f".toList, "pdf".toList, "-o".toList, inOut.2, inOut.1]
        :: t.invocations, t.panicked⟩

/-- Model of export_with_svg2pdf, src/src/template.rs lines 226 to 237: one
invocation per source file carrying only the input path, with the same panic
behavior on a path that is not valid UTF-8. -/
def export_with_svg2pdf : List RPath → ExportTrace
  | [] => ⟨[], false⟩
  | src :: rest =>
    match get_in_out_file src with
    | none => ⟨[], true⟩
    | some inOut =>
      let t := export_with_svg2pdf rest
      ⟨export_with "svg2pdf" [inOut.1] :: t.invocations, t.panicked⟩

/-- The shape of the invocation export_with_cairosvg issues for one source
file. -/
def cairoInv (s : Str) : Invocation :=
  ⟨"cairosvg",
    ["-f".toList, "pdf".toList, "-o".toList, withExtension s "pdf".toList, s]⟩

/-- The shape of the invocation export_with_svg2pdf issues for one source
file. -/
def svg2pdfInv (s : Str) : Invocation := ⟨"svg2pdf", [s]⟩

/-- The exporter enumeration of src/src/template.rs lines 15 to 20. -/
inductive Exporter
  | inkscape
  | cairoSVG
  | svg2pdf
deriving DecidableEq

/-- The dispatch on the chosen exporter in render, src/src/template.rs lines
116 to 122. -/
def exportDispatch (e : Exporter) (srcs : List RPath) : ExportTrace :=
  match e with
  | .inkscape => export_with_inkscape srcs
  | .cairoSVG => export_with_cairosvg srcs
  | .svg2pdf => export_with_svg2pdf srcs

/-- The export phase of render: it runs only when the record loop completed
and an exporter was requested, and it receives the accumulated files vector,
whose paths are valid UTF-8 by construction. -/
def exportPhase (out : RunOut) (exporter : Option Exporter) : ExportTrace :=
  match out.result, exporter with
  | .ok _, some e => exportDispatch e (out.files.map RPath.utf8)
  | _, _ => ⟨[], false⟩

/-- Model of render, src/src/template.rs lines 61 to 124. File contents are
supplied as parameters: tmpl is the parsed template read from the template
path and records holds the rows of the companion CSV file, located by
swapping the template extension to csv. The separator defaults to a dash.
On success the function returns Ok of unit. -/
def render (tmplPath : Str) (tmpl : Template) (outputDir : Str)
    (exporter : Option Exporter) (fieldBasedName : Option (List String))
    (separator : Option Str) (records : List Record) :
    RunOut × ExportTrace :=
  let _templateData := withExtension tmplPath "csv".toList
  let sep := separator.getD "-".toList
  let out := runRecords tmpl fieldBasedName sep outputDir records
  (out, exportPhase out exporter)

/-- Outcome of spawning an external program: the program was not found or
could not be started, or it ran and exited with the given status code. -/
inductive SpawnOutcome
  | notFound
  | exited (code : Int)

/-- Model of the execution side of export_with, src/src/template.rs lines
190 to 199, against an environment describing how each spawn turns out: the
expect call panics (none) when the spawn fails, and the captured output is
bound to an unused variable, so the exit status, zero or not, is discarded
and the function returns unit. -/
def export_with_run (spawn : String → List Str → SpawnOutcome)
    (program : String) (args : List Str) : Option Unit :=
  match spawn program args with
  | .notFound => none
  | .exited _ => some ()


theorem map_intersperse {α β : Type} (f : α → β) (a : α) (l : List α) :
    (List.intersperse a l).map f = List.intersperse (f a) (l.map f) := by
  induction l with
  | nil => rfl
  | cons b tl ih =>
    cases tl with
    | nil => rfl
    | cons c tl2 =>
      simp only [List.intersperse_cons_cons, List.map_cons] at ih ⊢
      rw [ih]

theorem map_intercalate {α β : Type} (f : α → β) (sep : List α)
    (xs : List (List α)) :
    (List.intercalate sep xs).map f =
      List.intercalate (sep.map f) (xs.map (fun s => s.map f)) := by
  simp only [List.intercalate, List.map_flatten, map_intersperse]

theorem lowerStr_intercalate (sep : Str) (xs : List Str) :
    lowerStr (List.intercalate sep xs) =
      List.intercalate (lowerStr sep) (xs.map (fun s => lowerStr s)) :=
  map_intercalate Char.toLower sep xs

/-- Claim C1 (corrected). For every record and every naming policy with a
non-empty field list, compute_name equals the amended reference rule: per
field, look up the value and replace each space character (only U+0020, and
wherever it occurs) by an underscore; join with the separator; lowercase the
entire joined string, so the separator is lowercased together with the
values. This is stated in the equivalent per-field form with a lowercased
separator, which is what makes the equality a theorem rather than a
restatement. The example with fields country, state, city and separator dash
yields usa-ca-los_angeles, see the witness. -/
theorem computeName_amended_correct (fields : List String) (sep : Str) (record : Record)
    (hne : fields ≠ []) :
    computeName (some fields) sep record = computeNameAmended fields sep record := by
  have h1 : computeName (some fields) sep record =
      (lookupAll record fields).map
        (fun v => lowerStr (List.intercalate sep (v.map replaceSpaces))) := rfl
  rw [h1, computeNameAmended]
  congr 1
  funext v
  rw [lowerStr_intercalate, List.map_map]
  rfl


theorem renderTemplate_missing (tmpl : Template) (record : Record) (f : String)
    (h1 : Seg.ref f ∈ tmpl) (h2 : lookupField record f = none) :
    ∃ g, renderTemplate tmpl record = .error (TemplateError.undefinedField g) ∧
      lookupField record g = none := by
  induction tmpl with
  | nil => cases h1
  | cons s rest ih =>
    cases s with
    | lit t =>
      have hm : Seg.ref f ∈ rest := by
        cases h1 with
        | tail _ h => exact h
      obtain ⟨g, hg, hgn⟩ := ih hm
      exact ⟨g, by simp [renderTemplate, hg, Except.map], hgn⟩
    | ref r =>
      cases hr : lookupField record r with
      | none => exact ⟨r, by simp [renderTemplate, hr], hr⟩
      | some v =>
        have hm : Seg.ref f ∈ rest := by
          cases h1 with
          | head => rw [h2] at hr; cases hr
          | tail _ h => exact h
        obtain ⟨g, hg, hgn⟩ := ih hm
        exact ⟨g, by simp [renderTemplate, hr, hg, Except.map], hgn⟩

theorem runRecords_stop (tmpl : Template) (fbn : Option (List String))
    (sep outputDir : Str) (r : Record) (e : RunStop)
    (hr : step tmpl fbn sep outputDir r = .error e) :
    ∀ pre : List Record, (∀ p ∈ pre, stepOk tmpl fbn sep outputDir p = true) →
    ∀ rest : List Record,
      runRecords tmpl fbn sep outputDir (pre ++ r :: rest) =
        ⟨(runRecords tmpl fbn sep outputDir pre).writes,
         (runRecords tmpl fbn sep outputDir pre).files, .error e⟩ := by
  intro pre
  induction pre with
  | nil =>
    intro _ rest
    simp [runRecords, hr]
  | cons p pre ih =>
    intro hpre rest
    have hp : stepOk tmpl fbn sep outputDir p = true := hpre p (by simp)
    have hpre2 : ∀ q ∈ pre, stepOk tmpl fbn sep outputDir q = true :=
      fun q hq => hpre q (by simp [hq])
    unfold stepOk at hp
    cases hstep : step tmpl fbn sep outputDir p with
    | error e2 => rw [hstep] at hp; cases hp
    | ok pc =>
      have hcons : (p :: pre) ++ r :: rest = p :: (pre ++ r :: rest) := rfl
      rw [hcons, runRecords, hstep, runRecords, hstep, ih hpre2 rest]

theorem runRecords_ok (tmpl : Template) (fbn : Option (List String))
    (sep outputDir : Str) (records : List Record)
    (h : ∀ r ∈ records, stepOk tmpl fbn sep outputDir r = true) :
    (runRecords tmpl fbn sep outputDir records).result = .ok () ∧
    (runRecords tmpl fbn sep outputDir records).writes.length = records.length ∧
    (runRecords tmpl fbn sep outputDir records).files =
      records.filterMap
        (fun r => ((step tmpl fbn sep outputDir r).toOption).map (fun pc => pc.1)) := by
  induction records with
  | nil => exact ⟨rfl, rfl, rfl⟩
  | cons r rs ih =>
    have hr : stepOk tmpl fbn sep outputDir r = true := h r (by simp)
    have hrs := ih (fun q hq => h q (by simp [hq]))
    unfold stepOk at hr
    cases hstep : step tmpl fbn sep outputDir r with
    | error e => rw [hstep] at hr; cases hr
    | ok pc =>
      obtain ⟨h1, h2, h3⟩ := hrs
      refine ⟨?_, ?_, ?_⟩
      · simp [runRecords, hstep, h1]
      · simp [runRecords, hstep, h2]
      · simp [runRecords, hstep, List.filterMap_cons, Except.toOption, h3]

theorem mem_writes (tmpl : Template) (fbn : Option (List String))
    (sep outputDir : Str) :
    ∀ (records : List Record) (w : Str × Str),
      w ∈ (runRecords tmpl fbn sep outputDir records).writes →
      ∃ r, r ∈ records ∧ step tmpl fbn sep outputDir r = .ok w := by
  intro records
  induction records with
  | nil => intro w hw; cases hw
  | cons r rs ih =>
    intro w hw
    cases hstep : step tmpl fbn sep outputDir r with
    | error e => rw [runRecords, hstep] at hw; cases hw
    | ok pc =>
      rw [runRecords, hstep] at hw
      simp only at hw
      cases hw with
      | head => exact ⟨r, by simp, hstep⟩
      | tail _ hmem =>
        obtain ⟨q, hq1, hq2⟩ := ih w hmem
        exact ⟨q, by simp [hq1], hq2⟩

theorem step_ok_shape (tmpl : Template) (fbn : Option (List String))
    (sep outputDir : Str) (r : Record) (w : Str × Str)
    (h : step tmpl fbn sep outputDir r = .ok w) :
    ∃ name, computeName fbn sep r = some name ∧
      renderTemplate tmpl r = .ok w.2 ∧
      w.1 = outputDir ++ "/".toList ++ name ++ ".svg".toList := by
  unfold step at h
  cases hn : computeName fbn sep r with
  | none => rw [hn] at h; cases h
  | some name =>
    rw [hn] at h
    cases hren : renderTemplate tmpl r with
    | error e => rw [hren] at h; cases h
    | ok rendered =>
      rw [hren] at h
      cases h
      exact ⟨name, rfl, rfl, rfl⟩

theorem applyWrites_cons (fs : Str → Option Str) (w : Str × Str)
    (ws : List (Str × Str)) :
    applyWrites fs (w :: ws) =
      applyWrites (fun q => if q = w.1 then some w.2 else fs q) ws := rfl

theorem applyWrites_not_written :
    ∀ (ws : List (Str × Str)) (fs : Str → Option Str) (p : Str),
      (∀ w ∈ ws, w.1 ≠ p) → applyWrites fs ws p = fs p := by
  intro ws
  induction ws with
  | nil => intro fs p _; rfl
  | cons w ws ih =>
    intro fs p h
    rw [applyWrites_cons]
    rw [ih _ p (fun q hq => h q (List.mem_cons_of_mem w hq))]
    exact if_neg (fun hpw => (h w (List.mem_cons_self w ws)) hpw.symm)

theorem applyWrites_indep :
    ∀ (ws : List (Str × Str)) (p : Str), p ∈ ws.map Prod.fst →
      ∀ fs0 fs1, applyWrites fs0 ws p = applyWrites fs1 ws p := by
  intro ws
  induction ws with
  | nil => intro p hp; cases hp
  | cons w ws ih =>
    intro p hp fs0 fs1
    rw [applyWrites_cons, applyWrites_cons]
    by_cases hmem : p ∈ ws.map Prod.fst
    · exact ih p hmem _ _
    · have hnot : ∀ q ∈ ws, q.1 ≠ p := by
        intro q hq hqp
        exact hmem (List.mem_map.mpr ⟨q, hq, hqp⟩)
      have hpw : p = w.1 := by
        rw [List.map_cons] at hp
        rcases List.mem_cons.mp hp with h | h
        · exact h
        · exact absurd h hmem
      rw [applyWrites_not_written ws _ p hnot, applyWrites_not_written ws _ p hnot]
      simp [hpw]

theorem filterMap_pathToStr_utf8 (l : List Str) :
    (l.map RPath.utf8).filterMap pathToStr = l := by
  induction l with
  | nil => rfl
  | cons s l ih => simp [List.filterMap_cons, pathToStr, ih]

theorem cairosvg_utf8_append (pre : List Str) (rest : List RPath) :
    export_with_cairosvg (pre.map RPath.utf8 ++ rest) =
      ⟨pre.map cairoInv ++ (export_with_cairosvg rest).invocations,
       (export_with_cairosvg rest).panicked⟩ := by
  induction pre with
  | nil => rfl
  | cons s pre ih =>
    simp only [List.map_cons, List.cons_append, export_with_cairosvg,
      get_in_out_file, pathToStr, withExtensionP, Option.map_some', List.append_eq, ih]
    rfl

theorem svg2pdf_utf8_append (pre : List Str) (rest : List RPath) :
    export_with_svg2pdf (pre.map RPath.utf8 ++ rest) =
      ⟨pre.map svg2pdfInv ++ (export_with_svg2pdf rest).invocations,
       (export_with_svg2pdf rest).panicked⟩ := by
  induction pre with
  | nil => rfl
  | cons s pre ih =>
    simp only [List.map_cons, List.cons_append, export_with_svg2pdf,
      get_in_out_file, pathToStr, withExtensionP, Option.map_some', List.append_eq, ih]
    rfl


/-- Claim C1, counterexample to the claim as stated. With fields a, b,
separator X and record a maps to P, b maps to the three characters u, tab, v,
the code joins first and lowercases afterwards, giving p x u tab v (the
separator X is lowercased to x and the tab survives), while the reference
rule of the claim gives p X u_v (per-field lowercasing that never touches the
separator, and whitespace, including the tab, replaced by an underscore). -/
theorem computeName_spec_counterexample :
    computeName (some ["a", "b"]) "X".toList
        [("a", "P".toList), ("b", "u\tv".toList)] ≠
      computeNameSpec ["a", "b"] "X".toList
        [("a", "P".toList), ("b", "u\tv".toList)] := by decide

/-- Claim C3 (code bug). With fields country and record containing only
city, the naming code of render indexes the record with a missing key and
panics, aborting the whole process: the model evaluates to none rather than
to any typed error value, and the run stops with the namingPanic marker and
no file written. The claim, following the spec, asks for a recoverable
MissingFieldError value naming the field; the code has no such value. -/
theorem computeName_missing_field_panics :
    computeName (some ["country"]) "-".toList [("city", "Austin".toList)] = none ∧
    (runRecords [Seg.lit "x".toList] (some ["country"]) "-".toList "output".toList
        [[("city", "Austin".toList)]]).result = .error RunStop.namingPanic ∧
    (runRecords [Seg.lit "x".toList] (some ["country"]) "-".toList "output".toList
        [[("city", "Austin".toList)]]).writes = [] := by
  refine ⟨by decide, by decide, by decide⟩

/-- Claim C4, counterexample to the claim as stated. Two successful runs
over different single-row data files write different artifact paths yet
return identical results, since render returns Ok of unit; therefore the
result of a successful run is not, and cannot determine, the list of written
artifact paths. -/
theorem run_result_not_artifact_list :
    (runRecords [Seg.lit "x".toList] none "-".toList "output".toList
        [[("a", "P".toList)]]).result =
      (runRecords [Seg.lit "x".toList] none "-".toList "output".toList
        [[("a", "Q".toList)]]).result ∧
    (runRecords [Seg.lit "x".toList] none "-".toList "output".toList
        [[("a", "P".toList)]]).result = .ok () ∧
    (runRecords [Seg.lit "x".toList] none "-".toList "output".toList
        [[("a", "P".toList)]]).files ≠
      (runRecords [Seg.lit "x".toList] none "-".toList "output".toList
        [[("a", "Q".toList)]]).files := by
  refine ⟨by decide, by decide, by decide⟩

/-- Claim C6 (code bug). The record of a two-column data file with columns
a then b and values X then Y may legally be iterated by the backing HashMap
with the entry for b first: that iteration order is a permutation of the
entries, and on it the no-fields naming fallback produces y, not the
lowercased first-column value x promised by the claim and by the doc comment
of render itself. -/
theorem fallback_name_iteration_order :
    List.Perm [("b", "Y".toList), ("a", "X".toList)]
      [("a", "X".toList), ("b", "Y".toList)] ∧
    computeName none "-".toList [("b", "Y".toList), ("a", "X".toList)] =
      some "y".toList ∧
    computeName none "-".toList [("a", "X".toList), ("b", "Y".toList)] =
      some "x".toList ∧
    (some "y".toList : Option Str) ≠ some "x".toList := by
  refine ⟨List.Perm.swap _ _ _, by decide, by decide, by decide⟩

/-- Claim C7 (code bug). Evaluating the execution model of export_with at
a concrete invocation: when the spawn of the program fails, the expect call
panics, modelled none, aborting the whole process instead of surfacing a
recoverable error; and when the program runs but exits with status 1, the
discarded output makes the call succeed silently, so no error is surfaced
when the program exits non-zero either. -/
theorem export_with_panics_not_error :
    export_with_run (fun _ _ => SpawnOutcome.notFound) "cairosvg"
      ["-f".toList, "pdf".toList, "-o".toList, "a.pdf".toList, "a.svg".toList] =
      none ∧
    export_with_run (fun _ _ => SpawnOutcome.exited 1) "cairosvg"
      ["-f".toList, "pdf".toList, "-o".toList, "a.pdf".toList, "a.svg".toList] =
      some () := ⟨rfl, rfl⟩

/-- Claim C5, counterexample to the claim as stated. A run over a template
file with extension txt still writes its output with the hard coded svg
extension of src/src/template.rs line 106, so the extension of the written
file is not the extension of the template file. -/
theorem output_extension_counterexample :
    extensionOf "t.txt".toList = some "txt".toList ∧
    (render "t.txt".toList [Seg.lit "x".toList] "output".toList none
        (some ["a"]) none [[("a", "P".toList)]]).1.writes =
      [("output/p.svg".toList, "x".toList)] ∧
    extensionOf "output/p.svg".toList = some "svg".toList ∧
    (some "svg".toList : Option Str) ≠ some "txt".toList := by
  refine ⟨by decide, by decide, by decide, by decide⟩


/-- Witness for claim C1: the theorem applied to the example of the spec,
with the concrete value usa-ca-los_angeles. -/
theorem computeName_amended_witness :
    (["country", "state", "city"] : List String) ≠ [] ∧
    computeName (some ["country", "state", "city"]) "-".toList
        [("country", "USA".toList), ("state", "CA".toList),
         ("city", "Los Angeles".toList)] =
      computeNameAmended ["country", "state", "city"] "-".toList
        [("country", "USA".toList), ("state", "CA".toList),
         ("city", "Los Angeles".toList)] ∧
    computeName (some ["country", "state", "city"]) "-".toList
        [("country", "USA".toList), ("state", "CA".toList),
         ("city", "Los Angeles".toList)] =
      some "usa-ca-los_angeles".toList :=
  ⟨by decide, computeName_amended_correct _ _ _ (by decide), by decide⟩

/-- Claim C2 (confirmed; the templating engine is modelled from the spec).
For every template containing a reference to a field absent from a record,
rendering that record fails with the render error for an undefined field
rather than substituting an empty string; and in a run whose earlier records
all succeed, the failing record stops the loop: the writes of the whole run
are exactly the writes of the successful prefix, no matter how many records
follow, and the run result is an error. -/
theorem render_missing_ref_aborts (tmpl : Template) (record : Record)
    (f : String) (fbn : Option (List String)) (sep outputDir : Str)
    (pre rest : List Record)
    (href : Seg.ref f ∈ tmpl) (habs : lookupField record f = none)
    (hpre : ∀ p ∈ pre, stepOk tmpl fbn sep outputDir p = true) :
    (∃ g, renderTemplate tmpl record = .error (TemplateError.undefinedField g) ∧
      lookupField record g = none) ∧
    (runRecords tmpl fbn sep outputDir (pre ++ record :: rest)).writes =
      (runRecords tmpl fbn sep outputDir pre).writes ∧
    ∃ e, (runRecords tmpl fbn sep outputDir (pre ++ record :: rest)).result =
      .error e := by
  obtain ⟨g, hg, hgn⟩ := renderTemplate_missing tmpl record f href habs
  have hstepErr : ∃ e, step tmpl fbn sep outputDir record = .error e := by
    unfold step
    cases hn : computeName fbn sep record with
    | none => exact ⟨.namingPanic, rfl⟩
    | some nm => exact ⟨.renderError (.undefinedField g), by simp [hg]⟩
  obtain ⟨e, he⟩ := hstepErr
  have hrun := runRecords_stop tmpl fbn sep outputDir record e he pre hpre rest
  exact ⟨⟨g, hg, hgn⟩, by rw [hrun], ⟨e, by rw [hrun]⟩⟩

/-- Witness for claim C2: a one-segment template referencing city rendered
against a record with only the field a. -/
theorem render_missing_ref_aborts_witness :
    (Seg.ref "city" ∈ ([Seg.ref "city"] : Template)) ∧
    lookupField [("a", "1".toList)] "city" = none ∧
    ((∃ g, renderTemplate [Seg.ref "city"] [("a", "1".toList)] =
        .error (TemplateError.undefinedField g) ∧
        lookupField [("a", "1".toList)] g = none) ∧
      (runRecords [Seg.ref "city"] (some ["a"]) "-".toList "out".toList
          ([] ++ [("a", "1".toList)] :: [])).writes =
        (runRecords [Seg.ref "city"] (some ["a"]) "-".toList "out".toList
          []).writes ∧
      ∃ e, (runRecords [Seg.ref "city"] (some ["a"]) "-".toList "out".toList
          ([] ++ [("a", "1".toList)] :: [])).result = .error e) :=
  ⟨by decide, by decide,
    render_missing_ref_aborts [Seg.ref "city"] [("a", "1".toList)] "city"
      (some ["a"]) "-".toList "out".toList [] [] (by decide) (by decide)
      (fun p hp => absurd hp (List.not_mem_nil p))⟩

theorem files_length_eq_writes_length (tmpl : Template)
    (fbn : Option (List String)) (sep outputDir : Str) (records : List Record) :
    (runRecords tmpl fbn sep outputDir records).files.length =
      (runRecords tmpl fbn sep outputDir records).writes.length := by
  induction records with
  | nil => rfl
  | cons r rs ih =>
    cases hstep : step tmpl fbn sep outputDir r with
    | error e => rw [runRecords, hstep]; rfl
    | ok pc => rw [runRecords, hstep]; simp [ih]

/-- Claim C4 (corrected). For a data file whose N rows all name and render
successfully, the run performs exactly N writes and accumulates exactly N
artifact paths, in row order, in the internal files vector that the export
step receives; the public result of render on success is Ok of unit, not the
path list, which is the correction forced by the counterexample. -/
theorem run_success_artifacts (tmpl : Template) (fbn : Option (List String))
    (sep outputDir : Str) (records : List Record)
    (h : ∀ r ∈ records, stepOk tmpl fbn sep outputDir r = true) :
    (runRecords tmpl fbn sep outputDir records).result = .ok () ∧
    (runRecords tmpl fbn sep outputDir records).writes.length = records.length ∧
    (runRecords tmpl fbn sep outputDir records).files =
      records.filterMap
        (fun r => ((step tmpl fbn sep outputDir r).toOption).map (fun pc => pc.1)) ∧
    (runRecords tmpl fbn sep outputDir records).files.length = records.length := by
  obtain ⟨h1, h2, h3⟩ := runRecords_ok tmpl fbn sep outputDir records h
  refine ⟨h1, h2, h3, ?_⟩
  rw [files_length_eq_writes_length]
  exact h2

/-- Witness for claim C4: a two-row run writing output/p.svg then
output/q.svg, in row order. -/
theorem run_success_artifacts_witness :
    (∀ r ∈ [[("a", "P".toList)], [("a", "Q".toList)]],
      stepOk [Seg.lit "x".toList] (some ["a"]) "-".toList "output".toList r = true) ∧
    ((runRecords [Seg.lit "x".toList] (some ["a"]) "-".toList "output".toList
        [[("a", "P".toList)], [("a", "Q".toList)]]).result = .ok () ∧
      (runRecords [Seg.lit "x".toList] (some ["a"]) "-".toList "output".toList
        [[("a", "P".toList)], [("a", "Q".toList)]]).writes.length = 2 ∧
      (runRecords [Seg.lit "x".toList] (some ["a"]) "-".toList "output".toList
        [[("a", "P".toList)], [("a", "Q".toList)]]).files =
        [[("a", "P".toList)], [("a", "Q".toList)]].filterMap
          (fun r => ((step [Seg.lit "x".toList] (some ["a"]) "-".toList
            "output".toList r).toOption).map (fun pc => pc.1)) ∧
      (runRecords [Seg.lit "x".toList] (some ["a"]) "-".toList "output".toList
        [[("a", "P".toList)], [("a", "Q".toList)]]).files.length = 2) ∧
    (runRecords [Seg.lit "x".toList] (some ["a"]) "-".toList "output".toList
      [[("a", "P".toList)], [("a", "Q".toList)]]).files =
      ["output/p.svg".toList, "output/q.svg".toList] :=
  ⟨by decide,
    run_success_artifacts [Seg.lit "x".toList] (some ["a"]) "-".toList
      "output".toList [[("a", "P".toList)], [("a", "Q".toList)]] (by decide),
    by decide⟩


/-- Claim C5 (corrected). Every file written by a run is written at the
path output directory, slash, base name computed by the naming engine, and
the hard coded svg extension, whatever extension the template file has, with
the rendered content of its record; and writing through fs::write overwrites
without warning: the final content at any written path does not depend on
what the directory held before the run. -/
theorem output_paths_svg_overwrite (tmplPath : Str) (tmpl : Template)
    (outputDir : Str) (exporter : Option Exporter)
    (fieldBasedName : Option (List String)) (separator : Option Str)
    (records : List Record) :
    (∀ w ∈ (render tmplPath tmpl outputDir exporter fieldBasedName separator
        records).1.writes,
      ∃ r name, r ∈ records ∧
        computeName fieldBasedName (separator.getD "-".toList) r = some name ∧
        renderTemplate tmpl r = .ok w.2 ∧
        w.1 = outputDir ++ "/".toList ++ name ++ ".svg".toList) ∧
    (∀ p, p ∈ ((render tmplPath tmpl outputDir exporter fieldBasedName separator
        records).1.writes).map Prod.fst →
      ∀ fs0 fs1,
        applyWrites fs0 ((render tmplPath tmpl outputDir exporter fieldBasedName
          separator records).1.writes) p =
        applyWrites fs1 ((render tmplPath tmpl outputDir exporter fieldBasedName
          separator records).1.writes) p) := by
  have hrw : (render tmplPath tmpl outputDir exporter fieldBasedName separator
      records).1 =
      runRecords tmpl fieldBasedName (separator.getD "-".toList) outputDir
        records := rfl
  constructor
  · intro w hw
    rw [hrw] at hw
    obtain ⟨r, hr, hstep⟩ :=
      mem_writes tmpl fieldBasedName (separator.getD "-".toList) outputDir
        records w hw
    obtain ⟨name, hn, hren, hpath⟩ :=
      step_ok_shape tmpl fieldBasedName (separator.getD "-".toList) outputDir
        r w hstep
    exact ⟨r, name, hr, hn, hren, hpath⟩
  · intro p hp fs0 fs1
    exact applyWrites_indep _ p hp fs0 fs1

/-- Witness for claim C5: the single write of a one-row run lands at
output/p.svg, and the final content there is the same whether the path
previously held a file or not. -/
theorem output_paths_svg_overwrite_witness :
    (("output/p.svg".toList, "x".toList) ∈
      (render "t.svg".toList [Seg.lit "x".toList] "output".toList none
        (some ["a"]) none [[("a", "P".toList)]]).1.writes) ∧
    (∃ r name, r ∈ [[("a", "P".toList)]] ∧
      computeName (some ["a"]) ((none : Option Str).getD "-".toList) r =
        some name ∧
      renderTemplate [Seg.lit "x".toList] r =
        .ok ("output/p.svg".toList, "x".toList).2 ∧
      ("output/p.svg".toList, "x".toList).1 =
        "output".toList ++ "/".toList ++ name ++ ".svg".toList) ∧
    ("output/p.svg".toList ∈
      ((render "t.svg".toList [Seg.lit "x".toList] "output".toList none
        (some ["a"]) none [[("a", "P".toList)]]).1.writes).map Prod.fst) ∧
    applyWrites (fun _ => some "old".toList)
        ((render "t.svg".toList [Seg.lit "x".toList] "output".toList none
          (some ["a"]) none [[("a", "P".toList)]]).1.writes)
        "output/p.svg".toList =
      applyWrites (fun _ => none)
        ((render "t.svg".toList [Seg.lit "x".toList] "output".toList none
          (some ["a"]) none [[("a", "P".toList)]]).1.writes)
        "output/p.svg".toList :=
  ⟨by decide,
    (output_paths_svg_overwrite "t.svg".toList [Seg.lit "x".toList]
      "output".toList none (some ["a"]) none [[("a", "P".toList)]]).1
      ("output/p.svg".toList, "x".toList) (by decide),
    by decide,
    (output_paths_svg_overwrite "t.svg".toList [Seg.lit "x".toList]
      "output".toList none (some ["a"]) none [[("a", "P".toList)]]).2
      "output/p.svg".toList (by decide) (fun _ => some "old".toList)
      (fun _ => none)⟩

/-- Claim C8 (confirmed). Export with the per-file variant (cairosvg)
issues exactly one subprocess invocation per artifact, each carrying the
artifact path as explicit input and, behind the output flag, the same path
with its extension replaced by pdf; in particular the artifact list a.svg,
b.svg yields exactly the two invocations with inputs a.svg and b.svg and
outputs a.pdf and b.pdf. -/
theorem cairosvg_per_file_invocations :
    (∀ srcs : List Str,
      (export_with_cairosvg (srcs.map RPath.utf8)).invocations =
        srcs.map cairoInv ∧
      (export_with_cairosvg (srcs.map RPath.utf8)).invocations.length =
        srcs.length ∧
      (export_with_cairosvg (srcs.map RPath.utf8)).panicked = false) ∧
    (export_with_cairosvg
        [RPath.utf8 "a.svg".toList, RPath.utf8 "b.svg".toList]).invocations =
      [⟨"cairosvg", ["-f".toList, "pdf".toList, "-o".toList, "a.pdf".toList,
        "a.svg".toList]⟩,
       ⟨"cairosvg", ["-f".toList, "pdf".toList, "-o".toList, "b.pdf".toList,
        "b.svg".toList]⟩] := by
  constructor
  · intro srcs
    have h := cairosvg_utf8_append srcs []
    rw [List.append_nil] at h
    refine ⟨?_, ?_, ?_⟩ <;> simp [h, export_with_cairosvg]
  · decide

/-- Claim C9 (confirmed). Export with the batch variant (inkscape) issues
exactly one subprocess invocation carrying the three fixed flags requesting
drawing-area-cropped PDF output in batch mode followed by all artifact
paths; and in a run that completes its record loop with this exporter, the
export trace is exactly that single invocation applied to the full
accumulated files vector, never one invocation per record. -/
theorem inkscape_batch_invocation :
    (∀ srcs : List Str,
      export_with_inkscape (srcs.map RPath.utf8) =
        ⟨[⟨"inkscape", ["--export-area-drawing".toList,
          "--batch-process".toList, "--export-type=pdf".toList] ++ srcs⟩],
         false⟩) ∧
    (∀ (tmplPath : Str) (tmpl : Template) (outputDir : Str)
        (fieldBasedName : Option (List String)) (separator : Option Str)
        (records : List Record),
      (render tmplPath tmpl outputDir (some Exporter.inkscape) fieldBasedName
        separator records).1.result = .ok () →
      (render tmplPath tmpl outputDir (some Exporter.inkscape) fieldBasedName
        separator records).2 =
        ⟨[⟨"inkscape", ["--export-area-drawing".toList,
          "--batch-process".toList, "--export-type=pdf".toList] ++
          (render tmplPath tmpl outputDir (some Exporter.inkscape)
            fieldBasedName separator records).1.files⟩], false⟩ ∧
      (render tmplPath tmpl outputDir (some Exporter.inkscape) fieldBasedName
        separator records).2.invocations.length = 1) := by
  have hink : ∀ srcs : List Str,
      export_with_inkscape (srcs.map RPath.utf8) =
        ⟨[⟨"inkscape", ["--export-area-drawing".toList,
          "--batch-process".toList, "--export-type=pdf".toList] ++ srcs⟩],
         false⟩ := by
    intro srcs
    unfold export_with_inkscape
    rw [filterMap_pathToStr_utf8]
    rfl
  refine ⟨hink, ?_⟩
  intro tmplPath tmpl outputDir fbn separator records hok
  have h2 : (render tmplPath tmpl outputDir (some Exporter.inkscape) fbn
      separator records).2 =
      exportPhase ((render tmplPath tmpl outputDir (some Exporter.inkscape)
        fbn separator records).1) (some Exporter.inkscape) := rfl
  have h3 : exportPhase ((render tmplPath tmpl outputDir
      (some Exporter.inkscape) fbn separator records).1)
      (some Exporter.inkscape) =
      export_with_inkscape (((render tmplPath tmpl outputDir
        (some Exporter.inkscape) fbn separator records).1).files.map
        RPath.utf8) := by
    unfold exportPhase
    rw [hok]
    rfl
  rw [h2, h3, hink]
  exact ⟨rfl, rfl⟩

/-- Witness for claim C9: a completed one-row run with the inkscape
exporter produces the single batch invocation over its files vector. -/
theorem inkscape_batch_invocation_witness :
    ((render "t.svg".toList [Seg.lit "x".toList] "output".toList
      (some Exporter.inkscape) (some ["a"]) none
      [[("a", "P".toList)]]).1.result = .ok ()) ∧
    ((render "t.svg".toList [Seg.lit "x".toList] "output".toList
        (some Exporter.inkscape) (some ["a"]) none [[("a", "P".toList)]]).2 =
      ⟨[⟨"inkscape", ["--export-area-drawing".toList,
        "--batch-process".toList, "--export-type=pdf".toList] ++
        (render "t.svg".toList [Seg.lit "x".toList] "output".toList
          (some Exporter.inkscape) (some ["a"]) none
          [[("a", "P".toList)]]).1.files⟩], false⟩ ∧
     (render "t.svg".toList [Seg.lit "x".toList] "output".toList
       (some Exporter.inkscape) (some ["a"]) none
       [[("a", "P".toList)]]).2.invocations.length = 1) :=
  ⟨by decide,
    inkscape_batch_invocation.2 "t.svg".toList [Seg.lit "x".toList]
      "output".toList (some ["a"]) none [[("a", "P".toList)]] (by decide)⟩

/-- Claim C10 (confirmed). The export variants treat paths that are not
valid UTF-8 asymmetrically: the inkscape variant never panics and issues its
single batch invocation with exactly the UTF-8 paths, silently dropping the
rest, while the cairosvg and svg2pdf variants panic at the first path that
is not valid UTF-8, issuing invocations only for the artifacts before it and
none after. -/
theorem utf8_handling_asymmetry :
    (∀ srcs : List RPath,
      (export_with_inkscape srcs).panicked = false ∧
      (export_with_inkscape srcs).invocations =
        [⟨"inkscape", ["--export-area-drawing".toList,
          "--batch-process".toList, "--export-type=pdf".toList] ++
          srcs.filterMap pathToStr⟩]) ∧
    (∀ (pre : List Str) (n : Nat) (rest : List RPath),
      (export_with_cairosvg
        (pre.map RPath.utf8 ++ RPath.nonUtf8 n :: rest)).panicked = true ∧
      (export_with_cairosvg
        (pre.map RPath.utf8 ++ RPath.nonUtf8 n :: rest)).invocations =
        pre.map cairoInv) ∧
    (∀ (pre : List Str) (n : Nat) (rest : List RPath),
      (export_with_svg2pdf
        (pre.map RPath.utf8 ++ RPath.nonUtf8 n :: rest)).panicked = true ∧
      (export_with_svg2pdf
        (pre.map RPath.utf8 ++ RPath.nonUtf8 n :: rest)).invocations =
        pre.map svg2pdfInv) := by
  refine ⟨fun srcs => ⟨rfl, rfl⟩, fun pre n rest => ?_, fun pre n rest => ?_⟩
  · have h := cairosvg_utf8_append pre (RPath.nonUtf8 n :: rest)
    have hbad : export_with_cairosvg (RPath.nonUtf8 n :: rest) =
        ⟨[], true⟩ := rfl
    rw [hbad] at h
    exact ⟨by simp [h], by simp [h]⟩
  · have h := svg2pdf_utf8_append pre (RPath.nonUtf8 n :: rest)
    have hbad : export_with_svg2pdf (RPath.nonUtf8 n :: rest) =
        ⟨[], true⟩ := rfl
    rw [hbad] at h
    exact ⟨by simp [h], by simp [h]⟩

end Svggloo
